import Mathlib

/-!
Verification of the chat-node core of the Distributed-Computing repository
(`COE427_HW1/chat_app/python`): the UDP-multicast transport with a SQLite
log (`mock_app.py`, class `DDSApp`), the message store (`persistence.py`,
class `MessageStore`), and the session/routing orchestrator
(`app_no_rti.py`, class `MainAppNoRTI`).

Modelling conventions:
* SQLite `REAL` timestamps are modelled by `ℚ`; Python `int(ts)` is the
  truncation toward zero.
* The SQLite `messages` table is a list of rows in insertion (rowid) order.
* `ORDER BY ts DESC LIMIT n` is modelled by a sort that is descending in
  `ts`, followed by `take n`.
* Side effects (store inserts, socket sends, callback invocations,
  GUI events) are returned as explicit action lists, in execution order.
-/

/-- Row of the `messages` table (schema shared by `mock_app.py` and
`persistence.py`): `ts, direction, from_user, first_name, last_name, grp, text`.
The auto-increment `id` is the position in the list holding the table. -/
structure DbRow where
  ts : ℚ
  direction : String
  from_user : String
  first_name : String
  last_name : String
  grp : String
  text : String
deriving DecidableEq, Repr

/-- Wire envelope at the transport layer: the JSON object
`{room, username, text, ts}` built in `DDSApp.publish` and decoded in
`DDSApp._rx_loop`. `ts` is optional because `msg.get("ts")` may be absent. -/
structure TEnvelope where
  room : String
  username : String
  text : String
  ts : Option ℚ
deriving DecidableEq, Repr

/-- State of one `DDSApp` transport instance (`mock_app.py`): its identity
(`username`, `room`), the stop event, whether the UDP socket has been
created and whether it has been closed, whether the dedicated SQLite
handle is open, and whether an `on_message` callback was supplied. -/
structure DDSApp where
  username : String
  room : String
  stopFlag : Bool
  sock : Option Bool
  dbOpen : Bool
  onMessageSet : Bool
deriving DecidableEq, Repr

namespace DDSApp

/-- Row inserted by `DDSApp._store`: `direction`, `from_user` and `text` as
passed, empty names by default, `grp` always `self.room`, and `ts`
defaulting to the current time when the caller passed `None`. -/
def storeRow (app : DDSApp) (direction from_user text : String)
    (ts : Option ℚ) (now : ℚ) : DbRow :=
  { ts := ts.getD now
    direction := direction
    from_user := from_user
    first_name := ""
    last_name := ""
    grp := app.room
    text := text }

/-- Row written by the `publish` path: an `"out"` record authored by this
node, timestamped with the current time. -/
def outRow (app : DDSApp) (text : String) (now : ℚ) : DbRow :=
  app.storeRow "out" app.username text none now

/-- Actions performed by `DDSApp.publish`, in order: first the local store
insert of the `"out"` record, then the datagram send of the serialized
envelope to the multicast address. -/
inductive PubAct where
  | storeOut (r : DbRow)
  | sendAttempt (env : TEnvelope)
deriving DecidableEq, Repr

/-- The ordered action sequence of `DDSApp.publish(text)` (mock_app.py
lines 114-140): store an `"out"` row locally, then attempt the network
send of `{room, username, text, ts}`. -/
def publishSteps (app : DDSApp) (text : String) (now : ℚ) : List PubAct :=
  [ .storeOut (app.outRow text now),
    .sendAttempt { room := app.room, username := app.username,
                   text := text, ts := some now } ]

/-- Executor for a publish action sequence against the local table `rows`.
A `storeOut` commits its row; a `sendAttempt` either succeeds (`sendOk`)
and execution continues, or raises, which aborts the remaining actions —
exactly the behaviour of `publish`, whose `sendto` is not guarded by
`try`. The result is the table contents after the call. -/
def runPub (rows : List DbRow) (acts : List PubAct) (sendOk : Bool) :
    List DbRow :=
  match acts with
  | [] => rows
  | .storeOut r :: rest => runPub (rows ++ [r]) rest sendOk
  | .sendAttempt _ :: rest =>
      if sendOk then runPub rows rest sendOk else rows

/-- Datagram as seen by one iteration of `DDSApp._rx_loop`: either it
decodes to an envelope, or decoding fails (malformed JSON, non-dict). -/
inductive Datagram where
  | ok (env : TEnvelope)
  | bad
deriving DecidableEq, Repr

/-- Actions performed by one receive-loop iteration, in order. -/
inductive RxAct where
  | storeIn (r : DbRow)
  | callback (env : TEnvelope)
deriving DecidableEq, Repr

/-- One iteration of `DDSApp._rx_loop` (mock_app.py lines 142-163) on a
received datagram: decode failures are swallowed; envelopes for another
`room` are dropped; otherwise an `"in"` row is stored when the author is
non-empty and not this node (`if author and author != self.username`),
and then the callback is invoked when one is set. -/
def rxStep (app : DDSApp) (d : Datagram) (now : ℚ) : List RxAct :=
  match d with
  | .bad => []
  | .ok env =>
      if env.room ≠ app.room then []
      else
        (if env.username ≠ "" ∧ env.username ≠ app.username then
          [.storeIn (app.storeRow "in" env.username env.text env.ts now)]
        else []) ++
        (if app.onMessageSet then [.callback env] else [])

/-- State after `DDSApp.close()` (mock_app.py lines 85-99): the stop event
is set; if a socket was ever created it is now closed (membership drop
errors are swallowed, and closing an already-closed Python socket is a
no-op); the SQLite handle is closed (`db.close` on a closed connection is
also harmless and its errors are swallowed). -/
def close (app : DDSApp) : DDSApp :=
  { app with
    stopFlag := true
    sock := app.sock.map (fun _ => true)
    dbOpen := false }

end DDSApp

/-- ASCII-only lower-casing, matching SQLite's default case folding for
`LIKE` (only `A`-`Z` fold; non-ASCII characters compare byte-wise). -/
def lowerAscii (c : Char) : Char :=
  if 'A' ≤ c ∧ c ≤ 'Z' then Char.ofNat (c.toNat + 32) else c

/-- SQLite `LIKE` pattern matching over character lists: `%` matches any
(possibly empty) sequence — i.e. the rest of the pattern matches some
suffix of the text — `_` matches exactly one character, and any other
pattern character matches case-insensitively (ASCII folding). -/
def likeMatch : List Char → List Char → Bool
  | [], t => t.isEmpty
  | '%' :: ps, t => t.tails.any (likeMatch ps)
  | '_' :: ps, t =>
      match t with
      | [] => false
      | _ :: ts => likeMatch ps ts
  | p :: ps, t =>
      match t with
      | [] => false
      | c :: ts => (lowerAscii p == lowerAscii c) && likeMatch ps ts

/-- String-level `LIKE`. -/
def stringLike (pattern text : String) : Bool :=
  likeMatch pattern.toList text.toList

/-- Does `q` start `s`? (character-list comparison). -/
def leadMatch : List Char → List Char → Bool
  | [], _ => true
  | _ :: _, [] => false
  | a :: as, b :: bs => a == b && leadMatch as bs

/-- Does `q` occur contiguously inside `s`? -/
def charsContain (q : List Char) : List Char → Bool
  | [] => q.isEmpty
  | b :: bs => leadMatch q (b :: bs) || charsContain q bs

/-- Spec-side predicate, written from the claim's words (not from the
code): `q` occurs in `s` as a case-insensitive substring, with ASCII case
folding. Used to compare the claimed behaviour of `search` against the
`LIKE`-based behaviour the code implements. -/
def containsCI (q s : String) : Bool :=
  charsContain (q.toList.map lowerAscii) (s.toList.map lowerAscii)

/-- Rows sorted by timestamp, newest first (model of `ORDER BY ts DESC`;
ties are broken by list order, as insertion sort is stable). -/
def sortDescTs (l : List DbRow) : List DbRow :=
  l.insertionSort (fun a b => b.ts ≤ a.ts)

namespace MessageStore

/-- The row filter of `MessageStore.search` (persistence.py lines 76-89):
`grp=? AND text LIKE ?` with the pattern `f"%{query}%"`. -/
def searchPred (grp query : String) (r : DbRow) : Bool :=
  r.grp == grp && stringLike ("%" ++ query ++ "%") r.text

/-- Model of `MessageStore.search(grp, query, limit)`: `SELECT ... WHERE grp=? AND
text LIKE ? ORDER BY ts DESC LIMIT ?`, then `rows.reverse()` so the result
is chronological, oldest first. `rows` is the table in insertion order. -/
def search (rows : List DbRow) (grp query : String) (limit : Nat) :
    List DbRow :=
  ((sortDescTs (rows.filter (searchPred grp query))).take limit).reverse

end MessageStore

/-- Application payload carried inside an envelope's `text` field,
embedded as its JSON parse result. The orchestrator (`app_no_rti.py`)
inspects `text` only through `_parse_payload` / `dict.get`, so a text is
modelled as: a presence document, a chat document, some other JSON
document (dict without a recognized `_type`), or plain non-document text
(including invalid JSON and empty strings), kept as the raw string.
Fields are `Option` because `dict.get` supplies defaults when absent. -/
inductive PText where
  | presence (action first_name last_name : Option String)
  | chat (sender dst grp txt : Option String)
  | otherDict
  | plain (s : String)
deriving DecidableEq, Repr

/-- Model of `_parse_payload` (app_no_rti.py lines 12-19): JSON-decode the text and
return the object when it is a dict, else `None`. On the embedded texts:
any document parses to itself, plain text does not parse. -/
def parsePayload : PText → Option PText
  | .plain _ => none
  | t => some t

/-- A row of the `messages` table as read back by the orchestrator's
replay query `SELECT ts, direction, from_user, text FROM messages WHERE
grp=?` (the `text` column is carried as its parse embedding). -/
structure StoreRow where
  ts : ℚ
  direction : String
  from_user : String
  text : PText
  grp : String
deriving DecidableEq, Repr

/-- Events the orchestrator forwards to the GUI consumer. The payload of
`message_received` is the forwarded string; chat payloads forward their
inner `text` string (`PText.plain`), the non-decodable fallback forwards
the raw row/envelope text. -/
inductive GuiEvent where
  | userJoined (user grp first_name last_name : String)
  | userLeft (user : String)
  | messageReceived (author dest : String) (text : PText)
deriving DecidableEq, Repr

/-- Python `int()` on a rational: truncation toward zero. -/
def truncInt (q : ℚ) : ℤ :=
  if 0 ≤ q then ⌊q⌋ else ⌈q⌉

/-- The replay dedup key `(author or "?", str(int(ts)), text or "")`
(app_no_rti.py lines 71 and 120). `str ∘ int` is injective on integers,
so the middle component is kept as the truncated integer; `text or ""` is
the identity on strings (the empty string maps to itself). -/
def keyOf (r : StoreRow) : String × ℤ × PText :=
  ((if r.from_user = "" then "?" else r.from_user), truncInt r.ts, r.text)

/-- Python `author or "?"`: the row author with the empty string replaced. -/
def authorOf (r : StoreRow) : String :=
  if r.from_user = "" then "?" else r.from_user

/-- GUI events one replayed (unseen) row produces, given the current
group and `self.user or ""` (app_no_rti.py lines 76-85 and 125-134):
presence rows are skipped; chat rows are forwarded when their destination
(defaulting to the group) is the group or the user, with the payload's
`from` as author (defaulting to the row author); other rows are forwarded
verbatim, addressed to the group. -/
def rowEvents (group user : String) (r : StoreRow) : List GuiEvent :=
  match r.text with
  | .presence _ _ _ => []
  | .chat sender dst _ txt =>
      let dest := dst.getD group
      if dest = group ∨ dest = user then
        [.messageReceived (sender.getD (authorOf r)) dest (.plain (txt.getD ""))]
      else []
  | .otherDict => [.messageReceived (authorOf r) group r.text]
  | .plain s => [.messageReceived (authorOf r) group (.plain s)]

/-- The replay loop with its `seen` dedup set (modelled as the list of
keys added so far): rows whose key was already seen are skipped, others
are added and processed. -/
def replayAux (group user : String) :
    List (String × ℤ × PText) → List StoreRow → List GuiEvent
  | _, [] => []
  | seen, r :: rs =>
      if keyOf r ∈ seen then replayAux group user seen rs
      else rowEvents group user r ++ replayAux group user (keyOf r :: seen) rs

/-- The `seen` set after the replay loop has walked `rows`. -/
def replaySeen : List (String × ℤ × PText) → List StoreRow →
    List (String × ℤ × PText)
  | seen, [] => seen
  | seen, r :: rs =>
      if keyOf r ∈ seen then replaySeen seen rs
      else replaySeen (keyOf r :: seen) rs

/-- One full run of the join-time replay over a history window
(oldest-to-newest rows), starting from an empty `seen` set — the loop
body shared verbatim by `join` (lines 58-87) and `update_user`
(lines 108-136). -/
def replayWindow (rows : List StoreRow) (group user : String) :
    List GuiEvent :=
  replayAux group user [] rows

/-- The `StoreRow` sort, newest first (`ORDER BY ts DESC`). -/
def sortDescTsRow (l : List StoreRow) : List StoreRow :=
  l.insertionSort (fun a b => b.ts ≤ a.ts)

/-- The most-recent-200-row window the replay queries for a group, in
oldest-to-newest order (`WHERE grp=? ORDER BY ts DESC LIMIT 200` followed
by `rows.reverse()`). -/
def windowOf (db : List StoreRow) (grp : String) : List StoreRow :=
  ((sortDescTsRow (db.filter (fun r => r.grp == grp))).take 200).reverse

/-- Mutable session state of `MainAppNoRTI` (app_no_rti.py lines 34-41).
A live backend is recorded by the room it was opened with (`none` when
closed/NotJoined); `online` is the `_online` dict as an insertion-ordered
association list `username ↦ (first_name, last_name)`. -/
structure MainState where
  backend : Option String
  user : Option String
  group : Option String
  first_name : String
  last_name : String
  online : List (String × String × String)
deriving DecidableEq, Repr

/-- Observable actions of an orchestrator command: a backend publish
(tagged with the room of the backend it went through), backend lifecycle
operations, and GUI events, in execution order. -/
inductive MAct where
  | publish (room : String) (p : PText)
  | closeBackend (room : String)
  | openBackend (room : String)
  | gui (e : GuiEvent)
deriving DecidableEq, Repr

/-- Model of `_publish_control(payload)` (app_no_rti.py lines 197-203): no-op
without a backend; otherwise publish the presence payload enriched with
the session's first and last name. -/
def pubControl (st : MainState) (action : String) : List MAct :=
  match st.backend with
  | none => []
  | some room =>
      [.publish room (.presence (some action) (some st.first_name)
        (some st.last_name))]

/-- Model of `MainAppNoRTI.send(destination, message)` (app_no_rti.py lines
156-161): no-op when there is no backend or the message text is empty
(`if not self.backend or not message`); otherwise publish the chat
payload `{_type:"chat", from:self.user, to:destination, group:self.group,
text:message}` through the backend, writing nothing locally. -/
def MainState.send (st : MainState) (destination message : String) :
    MainState × List MAct :=
  match st.backend with
  | none => (st, [])
  | some room =>
      if message = "" then (st, [])
      else
        (st, [.publish room
          (.chat st.user (some destination) st.group (some message))])

/-- Python dict assignment `d[u] = {first, last}` on the `_online`
association list: overwrite in place when the key exists, else append. -/
def setOnline (l : List (String × String × String)) (u fn ln : String) :
    List (String × String × String) :=
  if l.any (fun e => e.1 = u) then
    l.map (fun e => if e.1 = u then (u, fn, ln) else e)
  else l ++ [(u, fn, ln)]

/-- Model of `MainAppNoRTI.join(user, group, first_name, last_name)` (app_no_rti.py
lines 48-92): set the identity (`first_name or ""` is the identity on
strings), open the backend on the group, replay the group's history
window, announce presence-join, then add self to `_online` and surface
the local join to the GUI. -/
def MainState.join (st : MainState) (db : List StoreRow)
    (user group first_name last_name : String) : MainState × List MAct :=
  let st0 : MainState :=
    { st with
      user := some user
      group := some group
      first_name := first_name
      last_name := last_name
      backend := some group }
  let evs := replayWindow (windowOf db group) group user
  let st1 := { st0 with online := setOnline st0.online user first_name last_name }
  (st1,
    [.openBackend group] ++ evs.map .gui ++ pubControl st0 "join" ++
      [.gui (.userJoined user group first_name last_name)])

/-- Model of `MainAppNoRTI.update_user(new_group)` (app_no_rti.py lines 94-138):
ignored without a backend or user (`if not self.backend or not
self.user`, so an empty username is also falsy) and when the new group
equals the current one; otherwise announce presence-leave on the old
backend, close it, clear `_online`, switch group, open a new backend,
replay the new group's window, and announce presence-join. Note that
`_online` is left cleared: unlike `join`, no self entry is added. -/
def MainState.updateUser (st : MainState) (db : List StoreRow)
    (new_group : String) : MainState × List MAct :=
  match st.backend, st.user with
  | some oldRoom, some u =>
      if u = "" then (st, [])
      else if st.group = some new_group then (st, [])
      else
        let st1 : MainState :=
          { st with
            backend := some new_group
            group := some new_group
            online := [] }
        let evs := replayWindow (windowOf db new_group) new_group u
        (st1,
          pubControl st "leave" ++
            [.closeBackend oldRoom, .openBackend new_group] ++
            evs.map .gui ++ pubControl st1 "join")
  | _, _ => (st, [])

/-- Envelope as handed to the orchestrator callback, with its `text`
carried in the parse embedding. -/
structure OEnvelope where
  room : String
  username : String
  text : PText
  ts : Option ℚ
deriving DecidableEq, Repr

/-- Model of `MainAppNoRTI._on_message(msg)` (app_no_rti.py lines 165-193), the
live classification path: presence join/leave maintain `_online` (with
self-events suppressed for the GUI), chat payloads are forwarded when
their destination (defaulting to `self.group or ""`) equals the group
(`to == self.group`) or the user (`to == (self.user or "")`), and
everything else is forwarded verbatim as plain chat from the envelope's
`username`, addressed to the current group. -/
def MainState.onMessage (st : MainState) (env : OEnvelope) :
    MainState × List GuiEvent :=
  match parsePayload env.text with
  | some (.presence act fn ln) =>
      let author := env.username
      if act = some "join" then
        if st.online.any (fun e => e.1 = author) then (st, [])
        else
          let fn0 := fn.getD ""
          let ln0 := ln.getD ""
          ({ st with online := st.online ++ [(author, fn0, ln0)] },
            if author ≠ st.user.getD "" then
              [.userJoined author (st.group.getD "") fn0 ln0]
            else [])
      else if act = some "leave" then
        if st.online.any (fun e => e.1 = author) ∧ author ≠ st.user.getD ""
        then
          ({ st with online := st.online.filter (fun e => e.1 ≠ author) },
            [.userLeft author])
        else (st, [])
      else (st, [])
  | some (.chat sender dst _ txt) =>
      let dest := dst.getD (st.group.getD "")
      if st.group = some dest ∨ dest = st.user.getD "" then
        (st, [.messageReceived (sender.getD "?") dest (.plain (txt.getD ""))])
      else (st, [])
  | some (.otherDict) =>
      (st, [.messageReceived env.username (st.group.getD "") env.text])
  | some (.plain s) =>
      (st, [.messageReceived env.username (st.group.getD "") (.plain s)])
  | none =>
      (st, [.messageReceived env.username (st.group.getD "") env.text])

/-- C5: every `publish(text)` appends the local `"out"` record (tagged
with this node's username and room) to the store synchronously before the
network send is attempted, and the resulting local table contains the
record whether or not the send succeeds — the action list shows the store
step strictly before the send attempt, and executing it with a failing
send still commits the record. -/
theorem publish_stores_before_send (app : DDSApp) (text : String)
    (now : ℚ) (rows : List DbRow) (sendOk : Bool) :
    DDSApp.runPub rows (DDSApp.publishSteps app text now) sendOk
        = rows ++ [app.outRow text now] ∧
      DDSApp.publishSteps app text now
        = [.storeOut (app.outRow text now),
           .sendAttempt { room := app.room, username := app.username,
                          text := text, ts := some now }] := by
  cases sendOk <;> simp [DDSApp.runPub, DDSApp.publishSteps]

/-- C7: `close()` is idempotent — a second call yields exactly the state
the first call produced (stop flag set, socket closed if it ever existed,
store handle released), and raises nothing (the model is total). -/
theorem close_idempotent (app : DDSApp) :
    DDSApp.close (DDSApp.close app) = DDSApp.close app ∧
      (DDSApp.close app).stopFlag = true ∧
      (DDSApp.close app).dbOpen = false := by
  cases h : app.sock <;> simp [DDSApp.close, h]

/-- C10: `send(destination, "")` with an empty message text is a no-op in
every session state — even a fully joined one — publishing nothing and
changing no state (and hence writing no store record, since the backend
is the single writer and is never called). -/
theorem send_empty_message_noop (st : MainState) (d : String) :
    st.send d "" = (st, []) := by
  obtain ⟨b, u, g, f, l, o⟩ := st
  cases b <;> simp [MainState.send]

/-- C9: every row this transport instance inserts into the `messages`
table — via `publish`'s `"out"` path or the receive loop's `"in"` path —
carries `grp` equal to the instance's own `room`, whatever the payload
text says. -/
theorem store_rows_tagged_with_room (app : DDSApp) (text : String)
    (now : ℚ) (d : DDSApp.Datagram) (r : DbRow) :
    (DDSApp.PubAct.storeOut r ∈ DDSApp.publishSteps app text now →
        r.grp = app.room) ∧
      (DDSApp.RxAct.storeIn r ∈ DDSApp.rxStep app d now →
        r.grp = app.room) := by
  constructor
  · intro h
    simp [DDSApp.publishSteps] at h
    subst h
    simp [DDSApp.outRow, DDSApp.storeRow]
  · intro h
    cases d with
    | bad => simp [DDSApp.rxStep] at h
    | ok env =>
        simp only [DDSApp.rxStep] at h
        split at h
        · exact absurd h (List.not_mem_nil _)
        · rw [List.mem_append] at h
          rcases h with h | h
          · split at h
            · simp at h
              subst h
              simp [DDSApp.storeRow]
            · exact absurd h (List.not_mem_nil _)
          · split at h <;> simp at h

/-- Witness for C9 at a concrete instance: the `"out"` row published by a
node in room `"g"` is tagged `grp = "g"`. -/
theorem store_rows_tagged_with_room_witness :
    (DDSApp.outRow
        { username := "alice", room := "g", stopFlag := false,
          sock := some false, dbOpen := true, onMessageSet := true }
        "hi" 0).grp = "g" :=
  (store_rows_tagged_with_room
      { username := "alice", room := "g", stopFlag := false,
        sock := some false, dbOpen := true, onMessageSet := true }
      "hi" 0 .bad
      (DDSApp.outRow
        { username := "alice", room := "g", stopFlag := false,
          sock := some false, dbOpen := true, onMessageSet := true }
        "hi" 0)).1
    (by simp [DDSApp.publishSteps])

/-- C8: with no live backend (`NotJoined`), `send` and `update_user` are
total no-ops (no error, no published action, no state change); likewise a
group-change whose target equals the current group is ignored in every
state. -/
theorem idle_commands_noop (st : MainState) (db : List StoreRow)
    (dest msg g : String) :
    (st.backend = none →
        st.send dest msg = (st, []) ∧ st.updateUser db g = (st, [])) ∧
      (st.group = some g → st.updateUser db g = (st, [])) := by
  obtain ⟨b, u, gr, f, l, o⟩ := st
  constructor
  · intro hb
    simp only at hb
    subst hb
    constructor
    · simp [MainState.send]
    · cases u <;> simp [MainState.updateUser]
  · intro hg
    simp only at hg
    subst hg
    cases b <;> cases u <;> simp [MainState.updateUser]

/-- Witness for C8: a `NotJoined` state ignores `send` and group-change,
and a joined state ignores a group-change to its current group. -/
theorem idle_commands_noop_witness :
    (MainState.send
        { backend := none, user := none, group := none, first_name := "",
          last_name := "", online := [] } "bob" "hi"
      = ({ backend := none, user := none, group := none, first_name := "",
           last_name := "", online := [] }, [])) ∧
    (MainState.updateUser
        { backend := none, user := none, group := none, first_name := "",
          last_name := "", online := [] } [] "ops"
      = ({ backend := none, user := none, group := none, first_name := "",
           last_name := "", online := [] }, [])) ∧
    (MainState.updateUser
        { backend := some "ops", user := some "alice", group := some "ops",
          first_name := "A", last_name := "L", online := [] } [] "ops"
      = ({ backend := some "ops", user := some "alice", group := some "ops",
           first_name := "A", last_name := "L", online := [] }, [])) := by
  refine ⟨?_, ?_, ?_⟩
  · exact ((idle_commands_noop _ [] "bob" "hi" "ops").1 rfl).1
  · exact ((idle_commands_noop _ [] "bob" "hi" "ops").1 rfl).2
  · exact (idle_commands_noop _ [] "bob" "hi" "ops").2 rfl

/-- The `seen` set only grows while the replay loop runs. -/
theorem replaySeen_subset (rows : List StoreRow)
    (seen : List (String × ℤ × PText)) (k : String × ℤ × PText)
    (hk : k ∈ seen) : k ∈ replaySeen seen rows := by
  induction rows generalizing seen with
  | nil => simpa [replaySeen] using hk
  | cons a rs ih =>
      by_cases h : keyOf a ∈ seen
      · simpa [replaySeen, h] using ih seen hk
      · simpa [replaySeen, h] using ih (keyOf a :: seen) (List.mem_cons_of_mem _ hk)

/-- After the replay loop has walked `rows`, the key of every walked row
is in the `seen` set. -/
theorem mem_replaySeen (rows : List StoreRow)
    (seen : List (String × ℤ × PText)) (r : StoreRow) (hr : r ∈ rows) :
    keyOf r ∈ replaySeen seen rows := by
  induction rows generalizing seen with
  | nil => cases hr
  | cons a rs ih =>
      rcases List.mem_cons.mp hr with h | h
      · subst h
        by_cases hk : keyOf r ∈ seen
        · simpa [replaySeen, hk] using replaySeen_subset rs seen _ hk
        · simpa [replaySeen, hk] using
            replaySeen_subset rs (keyOf r :: seen) _ (List.mem_cons_self _ _)
      · by_cases hk : keyOf a ∈ seen <;> simpa [replaySeen, hk] using ih _ h

/-- Rows whose keys are all already seen produce no replay events. -/
theorem replayAux_eq_nil_of_seen (g u : String) (rows : List StoreRow)
    (seen : List (String × ℤ × PText))
    (h : ∀ r ∈ rows, keyOf r ∈ seen) : replayAux g u seen rows = [] := by
  induction rows with
  | nil => rfl
  | cons a rs ih =>
      have ha := h a (List.mem_cons_self _ _)
      simp only [replayAux, if_pos ha]
      exact ih (fun r hr => h r (List.mem_cons_of_mem _ hr))

/-- Splitting a replay run over an appended window: the second part runs
against the `seen` set accumulated by the first. -/
theorem replayAux_append (g u : String) (xs ys : List StoreRow)
    (seen : List (String × ℤ × PText)) :
    replayAux g u seen (xs ++ ys) =
      replayAux g u seen xs ++ replayAux g u (replaySeen seen xs) ys := by
  induction xs generalizing seen with
  | nil => simp [replayAux, replaySeen]
  | cons a xs ih =>
      by_cases h : keyOf a ∈ seen <;>
        simp [replayAux, replaySeen, h, ih]

/-- C2 (amended): the dedup seen-set collapses duplicates only within a
single replay pass — walking the same window twice inside one pass
forwards each history event exactly as often as walking it once. (Across
two separate join-time replays the seen-set is rebuilt from empty, so the
second pass re-forwards the same events; see the counterexample.) -/
theorem replayWindow_idempotent_within_pass (w : List StoreRow)
    (g u : String) :
    replayWindow (w ++ w) g u = replayWindow w g u := by
  unfold replayWindow
  rw [replayAux_append]
  rw [replayAux_eq_nil_of_seen g u w (replaySeen [] w)
    (fun r hr => mem_replaySeen w [] r hr)]
  simp

/-- C2 counterexample: over a one-row window holding a chat for group
`"g"`, a single replay run forwards the chat event once, so the two
independent runs performed by two consecutive joins forward it twice in
total — the second run duplicates the first, contradicting the claim that
two runs forward each event the same number of times as one run. -/
theorem replay_second_run_duplicates_counterexample :
    List.count (GuiEvent.messageReceived "bob" "g" (.plain "hi"))
        (replayWindow
            [{ ts := 5, direction := "out", from_user := "bob",
               text := .chat (some "bob") (some "g") (some "g") (some "hi"),
               grp := "g" }] "g" "alice" ++
          replayWindow
            [{ ts := 5, direction := "out", from_user := "bob",
               text := .chat (some "bob") (some "g") (some "g") (some "hi"),
               grp := "g" }] "g" "alice") = 2 ∧
      List.count (GuiEvent.messageReceived "bob" "g" (.plain "hi"))
        (replayWindow
          [{ ts := 5, direction := "out", from_user := "bob",
             text := .chat (some "bob") (some "g") (some "g") (some "hi"),
             grp := "g" }] "g" "alice") = 1 := by
  constructor <;> decide

/-- The presence broadcasts in an orchestrator action list: pairs of
(room published through, presence action). -/
def presencePubs (acts : List MAct) : List (String × String) :=
  acts.filterMap (fun a =>
    match a with
    | .publish room (.presence (some act) _ _) => some (room, act)
    | _ => none)

/-- The map `presencePubs` distributes over append. -/
theorem presencePubs_append (xs ys : List MAct) :
    presencePubs (xs ++ ys) = presencePubs xs ++ presencePubs ys := by
  simp [presencePubs]

/-- GUI events contribute no presence broadcasts. -/
theorem presencePubs_gui (evs : List GuiEvent) :
    presencePubs (evs.map .gui) = [] := by
  induction evs with
  | nil => rfl
  | cons e es ih => simp [presencePubs, List.filterMap_cons] at ih ⊢

/-- C1 counterexample: a session joined to `"services"` as `alice`
(backend live, `online = [alice ↦ (A, L)]`, empty history) switches to
`"ops"`; immediately after `update_user` completes the online map is
empty — it was cleared but, unlike `join`, never re-seeded with the local
user, so it does not contain exactly the local user as claimed. -/
theorem updateUser_no_reseed_counterexample :
    (MainState.updateUser
        { backend := some "services", user := some "alice",
          group := some "services", first_name := "A", last_name := "L",
          online := [("alice", "A", "L")] } [] "ops").1.online = [] ∧
      (MainState.updateUser
          { backend := some "services", user := some "alice",
            group := some "services", first_name := "A", last_name := "L",
            online := [("alice", "A", "L")] } [] "ops").1.online
        ≠ [("alice", "A", "L")] := by
  constructor <;> decide

/-- C1 (amended): a group-change to a new group on a live session clears
the previous `online` map entirely and leaves it empty — the local user
is **not** synchronously re-added (they re-enter only when the node's own
presence-join envelope echoes back), unlike `join`, which seeds the map
with the local user; the presence-leave on the old room and presence-join
on the new room are each broadcast exactly once. -/
theorem updateUser_clears_online (st : MainState) (db : List StoreRow)
    (g r u : String) (hb : st.backend = some r) (hu : st.user = some u)
    (hne : u ≠ "") (hg : st.group ≠ some g) :
    (st.updateUser db g).1.online = [] ∧
      presencePubs (st.updateUser db g).2 = [(r, "leave"), (g, "join")] := by
  obtain ⟨b, us, gr, f, l, o⟩ := st
  simp only at hb hu hg
  subst hb; subst hu
  constructor
  · simp [MainState.updateUser, hne, hg]
  · simp only [MainState.updateUser, if_neg hne, if_neg hg]
    simp only [presencePubs_append, presencePubs_gui]
    simp [presencePubs, pubControl]

/-- Witness for C1's amended theorem at the scenario state: switching
from `"services"` to `"ops"` empties `online` and broadcasts the two
presence events once each, through the matching rooms. -/
theorem updateUser_clears_online_witness :
    (MainState.updateUser
        { backend := some "services", user := some "alice",
          group := some "services", first_name := "A", last_name := "L",
          online := [("alice", "A", "L")] } [] "ops").1.online = [] ∧
      presencePubs
          (MainState.updateUser
            { backend := some "services", user := some "alice",
              group := some "services", first_name := "A", last_name := "L",
              online := [("alice", "A", "L")] } [] "ops").2
        = [("services", "leave"), ("ops", "join")] :=
  updateUser_clears_online
    { backend := some "services", user := some "alice",
      group := some "services", first_name := "A", last_name := "L",
      online := [("alice", "A", "L")] }
    [] "ops" "services" "alice" rfl rfl (by decide) (by decide)

/-- C3: for a live envelope whose text decodes as a chat payload with an
explicit destination, the classification path forwards exactly one
`message_received` event — authored by the payload's `from` field
(defaulting to `"?"`), not the envelope's `username` — precisely when the
destination equals the current group or the current username, and
forwards nothing otherwise (in particular, a chat addressed to a group
the node is not in, from anyone, is never forwarded). -/
theorem onMessage_chat_filter (st : MainState) (env : OEnvelope)
    (sender dst grp txt : Option String) (dest : String)
    (htext : env.text = .chat sender dst grp txt) (hdst : dst = some dest) :
    ((st.onMessage env).2
        = [.messageReceived (sender.getD "?") dest (.plain (txt.getD ""))]
      ↔ (st.group = some dest ∨ dest = st.user.getD "")) ∧
      ((st.onMessage env).2 = []
        ↔ ¬ (st.group = some dest ∨ dest = st.user.getD "")) := by
  subst hdst
  by_cases h : st.group = some dest ∨ dest = st.user.getD "" <;>
    simp [MainState.onMessage, htext, parsePayload, h]

/-- Witness for C3: a chat from `bob` addressed to the node's current
group `"ops"` is forwarded once, authored by the payload's `from`. -/
theorem onMessage_chat_filter_witness :
    (MainState.onMessage
        { backend := some "ops", user := some "alice", group := some "ops",
          first_name := "A", last_name := "L", online := [] }
        { room := "ops", username := "relay",
          text := .chat (some "bob") (some "ops") (some "ops") (some "hi"),
          ts := none }).2
      = [.messageReceived "bob" "ops" (.plain "hi")] := by
  have h := onMessage_chat_filter
    { backend := some "ops", user := some "alice", group := some "ops",
      first_name := "A", last_name := "L", online := [] }
    { room := "ops", username := "relay",
      text := .chat (some "bob") (some "ops") (some "ops") (some "hi"),
      ts := none }
    (some "bob") (some "ops") (some "ops") (some "hi") "ops" rfl rfl
  exact h.1.mpr (Or.inl rfl)

/-- C4 counterexample: an inbound envelope for the right room whose
`username` is empty — different from this node's own username `"alice"` —
is passed to the callback but no `"in"` record is stored, because the
code requires a truthy author (`if author and author != self.username`),
not merely one different from the node's own. -/
theorem rx_blank_username_counterexample :
    DDSApp.rxStep
        { username := "alice", room := "g", stopFlag := false,
          sock := some false, dbOpen := true, onMessageSet := true }
        (.ok { room := "g", username := "", text := "t", ts := none }) 0
      = [.callback { room := "g", username := "", text := "t", ts := none }] ∧
      ({ room := "g", username := "", text := "t", ts := none } :
          TEnvelope).username
        ≠ ({ username := "alice", room := "g", stopFlag := false,
             sock := some false, dbOpen := true,
             onMessageSet := true } : DDSApp).username := by
  constructor <;> decide

/-- C4 (amended): for every successfully decoded datagram, the receive
loop invokes the callback exactly when the envelope's room equals this
transport's room; before invoking it, it stores an `"in"` record exactly
when additionally the envelope's username is non-empty and differs from
this node's own username (self-echo suppression plus the blank-author
guard). -/
theorem rx_store_callback_spec (app : DDSApp) (env : TEnvelope) (now : ℚ)
    (hcb : app.onMessageSet = true) :
    (DDSApp.RxAct.callback env ∈ DDSApp.rxStep app (.ok env) now
        ↔ env.room = app.room) ∧
      ((∃ r, DDSApp.RxAct.storeIn r ∈ DDSApp.rxStep app (.ok env) now)
        ↔ (env.room = app.room ∧ env.username ≠ "" ∧
            env.username ≠ app.username)) ∧
      (env.room = app.room → env.username ≠ "" →
        env.username ≠ app.username →
        DDSApp.rxStep app (.ok env) now
          = [.storeIn (app.storeRow "in" env.username env.text env.ts now),
             .callback env]) := by
  by_cases hroom : env.room = app.room
  · by_cases hu1 : env.username = ""
    · simp [DDSApp.rxStep, hroom, hu1, hcb]
    · by_cases hu2 : env.username = app.username
      · simp [DDSApp.rxStep, hroom, hu1, hu2, hcb]
      · simp [DDSApp.rxStep, hroom, hu1, hu2, hcb]
  · simp [DDSApp.rxStep, hroom, hcb]

/-- Witness for C4's amended theorem: a remote author's envelope for the
matching room is first stored as an `"in"` row, then handed to the
callback. -/
theorem rx_store_callback_spec_witness :
    DDSApp.rxStep
        { username := "alice", room := "g", stopFlag := false,
          sock := some false, dbOpen := true, onMessageSet := true }
        (.ok { room := "g", username := "bob", text := "t", ts := none }) 0
      = [.storeIn
           (DDSApp.storeRow
             { username := "alice", room := "g", stopFlag := false,
               sock := some false, dbOpen := true, onMessageSet := true }
             "in" "bob" "t" none 0),
         .callback { room := "g", username := "bob", text := "t",
                     ts := none }] := by
  have h := rx_store_callback_spec
    { username := "alice", room := "g", stopFlag := false,
      sock := some false, dbOpen := true, onMessageSet := true }
    { room := "g", username := "bob", text := "t", ts := none } 0 rfl
  exact h.2.2 rfl (by decide) (by decide)

/-- C6 counterexample: with one row of group `"ops"` and text `"ab"`,
`search("ops", "_", 10)` returns the row — the SQL `LIKE` pattern
`%_%` lets the underscore match any character — although `"ab"` does not
contain the query `"_"` as a (case-insensitive) substring, refuting the
claim that exactly the substring-matching rows are returned. -/
theorem search_wildcard_counterexample :
    MessageStore.search
        [{ ts := 1, direction := "out", from_user := "x", first_name := "",
           last_name := "", grp := "ops", text := "ab" }] "ops" "_" 10
      = [{ ts := 1, direction := "out", from_user := "x", first_name := "",
           last_name := "", grp := "ops", text := "ab" }] ∧
      containsCI "_" "ab" = false := by
  constructor <;> decide

/-- C6 (amended): `search(group, query, limit)` returns exactly the rows
of that group whose text matches the SQL `LIKE` pattern `%query%`
(case-insensitive, with `%` and `_` in the query acting as wildcards —
equivalent to case-insensitive substring containment only when the query
has no wildcard), keeping the `limit` most-recent matches and returning
them in chronological order, oldest first: every returned row is a match
of the group, the result is sorted by ascending timestamp, its length is
at most `limit` and in fact exactly the smaller of `limit` and the match
count, every match left out is no newer than every returned row (so the
kept rows are the most-recent matches), and when the matches fit within
`limit` the result is exactly the matching rows (up to the sort's
ordering). -/
theorem search_like_characterization (rows : List DbRow) (g q : String)
    (limit : Nat) :
    (∀ r ∈ MessageStore.search rows g q limit,
        r.grp = g ∧ stringLike ("%" ++ q ++ "%") r.text = true) ∧
      List.Sorted (fun a b : DbRow => a.ts ≤ b.ts)
        (MessageStore.search rows g q limit) ∧
      (MessageStore.search rows g q limit).length ≤ limit ∧
      (MessageStore.search rows g q limit).length
        = min limit (rows.filter (MessageStore.searchPred g q)).length ∧
      (∀ r ∈ MessageStore.search rows g q limit,
        ∀ m ∈ rows.filter (MessageStore.searchPred g q),
          m ∉ MessageStore.search rows g q limit → m.ts ≤ r.ts) ∧
      ((rows.filter (MessageStore.searchPred g q)).length ≤ limit →
        (MessageStore.search rows g q limit).Perm
          (rows.filter (MessageStore.searchPred g q))) := by
  haveI hto : IsTotal DbRow (fun a b => b.ts ≤ a.ts) :=
    ⟨fun a b => le_total b.ts a.ts⟩
  haveI htr : IsTrans DbRow (fun a b => b.ts ≤ a.ts) :=
    ⟨fun _ _ _ h1 h2 => le_trans h2 h1⟩
  have hsort0 : List.Sorted (fun a b : DbRow => b.ts ≤ a.ts)
      (sortDescTs (rows.filter (MessageStore.searchPred g q))) :=
    List.sorted_insertionSort _ _
  have hslen : (sortDescTs (rows.filter (MessageStore.searchPred g q))).length
      = (rows.filter (MessageStore.searchPred g q)).length :=
    (List.perm_insertionSort _ _).length_eq
  refine ⟨?_, ?_, ?_, ?_, ?_, ?_⟩
  · intro r hr
    rw [MessageStore.search, List.mem_reverse] at hr
    have h1 : r ∈ sortDescTs (rows.filter (MessageStore.searchPred g q)) :=
      List.take_subset _ _ hr
    have h2 : r ∈ rows.filter (MessageStore.searchPred g q) :=
      ((List.perm_insertionSort _ _).mem_iff).mp h1
    have h3 := (List.mem_filter.mp h2).2
    simp only [MessageStore.searchPred, Bool.and_eq_true, beq_iff_eq] at h3
    exact h3
  · rw [MessageStore.search]
    exact List.pairwise_reverse.mpr (hsort0.sublist (List.take_sublist _ _))
  · rw [MessageStore.search, List.length_reverse]
    exact List.length_take_le _ _
  · rw [MessageStore.search, List.length_reverse, List.length_take, hslen]
  · intro r hr m hm hnm
    rw [MessageStore.search, List.mem_reverse] at hr
    have hms : m ∈ sortDescTs (rows.filter (MessageStore.searchPred g q)) :=
      ((List.perm_insertionSort _ _).mem_iff).mpr hm
    have hnt : m ∉
        (sortDescTs (rows.filter (MessageStore.searchPred g q))).take limit := by
      intro hc
      apply hnm
      rw [MessageStore.search, List.mem_reverse]
      exact hc
    have hmd : m ∈
        (sortDescTs (rows.filter (MessageStore.searchPred g q))).drop limit := by
      have hsplit := hms
      rw [← List.take_append_drop limit
        (sortDescTs (rows.filter (MessageStore.searchPred g q)))] at hsplit
      rcases List.mem_append.mp hsplit with h | h
      · exact absurd h hnt
      · exact h
    have hp := hsort0
    rw [← List.take_append_drop limit
      (sortDescTs (rows.filter (MessageStore.searchPred g q)))] at hp
    exact (List.pairwise_append.mp hp).2.2 r hr m hmd
  · intro hlen
    rw [MessageStore.search]
    have hperm : (sortDescTs (rows.filter (MessageStore.searchPred g q))).Perm
        (rows.filter (MessageStore.searchPred g q)) :=
      List.perm_insertionSort _ _
    have hlen2 : (sortDescTs (rows.filter (MessageStore.searchPred g q))).length
        ≤ limit := by
      rw [hperm.length_eq]
      exact hlen
    rw [List.take_of_length_le hlen2]
    exact (List.reverse_perm _).trans hperm

/-- Witness for C6's amended theorem at the spec's own scenario: after
inserting `[out, "HELLO there"]` then `[in, "say Hello"]` in group
`"ops"`, `search("ops", "hello", 10)` matches the first row
case-insensitively and returns exactly the two matching rows; and with
`limit = 1` — matches exceeding the limit — the dropped older match
(`ts = 1`) is no newer than the kept most-recent one (`ts = 2`). -/
theorem search_like_characterization_witness :
    (({ ts := 1, direction := "out", from_user := "a", first_name := "",
        last_name := "", grp := "ops", text := "HELLO there" } : DbRow).grp
        = "ops" ∧
      stringLike ("%" ++ "hello" ++ "%") "HELLO there" = true) ∧
      (MessageStore.search
          [{ ts := 1, direction := "out", from_user := "a", first_name := "",
             last_name := "", grp := "ops", text := "HELLO there" },
           { ts := 2, direction := "in", from_user := "b", first_name := "",
             last_name := "", grp := "ops", text := "say Hello" }]
          "ops" "hello" 10).Perm
        ([{ ts := 1, direction := "out", from_user := "a", first_name := "",
            last_name := "", grp := "ops", text := "HELLO there" },
          { ts := 2, direction := "in", from_user := "b", first_name := "",
            last_name := "", grp := "ops", text := "say Hello" }].filter
          (MessageStore.searchPred "ops" "hello")) ∧
      ({ ts := 1, direction := "out", from_user := "a", first_name := "",
         last_name := "", grp := "ops",
         text := "HELLO there" } : DbRow).ts
        ≤ ({ ts := 2, direction := "in", from_user := "b", first_name := "",
             last_name := "", grp := "ops",
             text := "say Hello" } : DbRow).ts := by
  have h := search_like_characterization
    [{ ts := 1, direction := "out", from_user := "a", first_name := "",
       last_name := "", grp := "ops", text := "HELLO there" },
     { ts := 2, direction := "in", from_user := "b", first_name := "",
       last_name := "", grp := "ops", text := "say Hello" }]
    "ops" "hello" 10
  have h1 := search_like_characterization
    [{ ts := 1, direction := "out", from_user := "a", first_name := "",
       last_name := "", grp := "ops", text := "HELLO there" },
     { ts := 2, direction := "in", from_user := "b", first_name := "",
       last_name := "", grp := "ops", text := "say Hello" }]
    "ops" "hello" 1
  refine ⟨h.1 _ ?_, h.2.2.2.2.2 (by decide),
    h1.2.2.2.2.1
      { ts := 2, direction := "in", from_user := "b", first_name := "",
        last_name := "", grp := "ops", text := "say Hello" } (by decide)
      { ts := 1, direction := "out", from_user := "a", first_name := "",
        last_name := "", grp := "ops", text := "HELLO there" } (by decide)
      (by decide)⟩
  decide
